import Mathlib

/-!
Verification development for the Pixelblaze-Async repository
(`pixelblaze_async/PixelblazeBase.py`, `PixelblazeClient.py`,
`PixelblazeEnumerator.py`).

The Python code is shallowly embedded: byte strings become `List Nat`
(one entry per byte), Python dicts become insertion-ordered association
lists, JSON values become the inductive `JVal`, wall-clock instants
become rationals, and the cooperatively scheduled session state becomes
explicit state passing (for `_ws_send`/`_expect`, the frames that arrive
on a queue before the deadline are passed in as an explicit list, so
"the await times out" is "the function returns `none` on that trace").
Each definition carries a comment pointing at the source lines it
embeds.
-/

namespace Pixelblaze

/-- Byte strings (Python `bytes`) as lists of byte values. -/
abbrev Bytes := List Nat

/-! ## JSON values and Python dicts

Python dicts are insertion ordered; `dict.update` overwrites the value
of an existing key in place and appends new keys at the end.  JSON
objects are represented as association lists of that shape.
-/

/-- A JSON value as received on the websocket (`msg.json()`), with
Python `None` represented by `null`.  Numbers are rationals. -/
inductive JVal where
  | null : JVal
  | bool : Bool → JVal
  | num : ℚ → JVal
  | str : String → JVal
  | obj : List (String × JVal) → JVal
  deriving Repr

/-- A decoded JSON object (Python dict keyed by strings). -/
abbrev JObj := List (String × JVal)

/-- Python `d[k] = v` on a dict: overwrite in place if the key exists,
append at the end otherwise. -/
def pyInsert (d : JObj) (k : String) (v : JVal) : JObj :=
  if d.any (fun p => p.1 == k) then
    d.map (fun p => if p.1 == k then (k, v) else p)
  else d ++ [(k, v)]

/-- Python `d.update(e)`: fold `pyInsert` over the entries of `e`. -/
def pyUpdate (d e : JObj) : JObj :=
  e.foldl (fun acc p => pyInsert acc p.1 p.2) d

/-- Python `k in d.keys()`. -/
def hasKey (d : JObj) (k : String) : Bool :=
  d.any (fun p => p.1 == k)

/-- Python `d[k]` (partial: `none` when the key is absent). -/
def pyGet (d : JObj) (k : String) : Option JVal :=
  (d.find? (fun p => p.1 == k)).map (fun p => p.2)

/-! ## Binary frame decoding (`PixelblazeBase._decode_binary_data`)

`PixelblazeBase.py` lines 57-69 declare the type-marker table and the
flag bits, lines 449-470 the decoder.  `self.bin_data` (the accumulator
that survives between calls) is passed explicitly as an
`Option Bytes`.
-/

/-- `data_type['program_list']` (PixelblazeBase.py line 63). -/
def data_type_program_list : Nat := 7

/-- `START = 1` (line 67). -/
def START : Nat := 1

/-- `CONT = 2` (line 68); declared in the source but never read. -/
def CONT : Nat := 2

/-- `END = 4` (line 69). -/
def END : Nat := 4

/-- Result of one `_decode_binary_data` call: either raw bytes or the
dictionary made out of `program_list` data. -/
inductive BinValue where
  | bytes : Bytes → BinValue
  | plist : List (Bytes × Bytes) → BinValue
  deriving Repr, DecidableEq

/-- Python truthiness of the decoder's `data` local: empty bytes and the
empty dict are falsy. -/
def binFalsy : BinValue → Bool
  | .bytes b => b.isEmpty
  | .plist m => m.isEmpty

/-- The pairs kept by `[m.split("\t") for m in ....split("\n")]`
filtered with `len(pat) == 2` (line 465-466).  Splitting the raw bytes
on byte 10 / byte 9 agrees with splitting the UTF-8 decoded text on
`"\n"` / `"\t"`, because multi-byte UTF-8 sequences never contain those
byte values. -/
def pairsOf (l : List (List Bytes)) : List (Bytes × Bytes) :=
  l.filterMap (fun pat =>
    match pat with
    | [a, b] => some (a, b)
    | _ => none)

/-- Python dict comprehension `{pat[0]: pat[1] for pat in ...}`: later
duplicate keys overwrite in place, fresh keys append. -/
def pyDictB (ps : List (Bytes × Bytes)) : List (Bytes × Bytes) :=
  ps.foldl (fun d p =>
    if d.any (fun q => q.1 == p.1) then
      d.map (fun q => if q.1 == p.1 then (p.1, p.2) else q)
    else d ++ [p]) []

/-- The value the END branch of `_decode_binary_data` builds from the
accumulated bytes (lines 464-468): the parsed (id, name) mapping for
`program_list` data, the raw accumulated bytes otherwise. -/
def finalizeVal (t : Nat) (accd : Bytes) : BinValue :=
  if t = data_type_program_list then
    .plist (pyDictB (pairsOf ((accd.splitOn 10).map (fun m => m.splitOn 9))))
  else .bytes accd

/-- What one call to `_decode_binary_data` produces: the returned value
(`data if data else bin_data`, line 470) and the accumulator
`self.bin_data` after the call. -/
structure DecodeOut where
  val : BinValue
  acc : Option Bytes
  deriving Repr, DecidableEq

/-- `_decode_binary_data` (PixelblazeBase.py lines 449-470) on one
chunk, with the accumulator passed explicitly.  Note that the payload
`bin_data[2:]` is appended to the accumulator only when the START bit
is set in `bin_data[1]` (line 461-462). -/
def decodeBinaryData (acc : Option Bytes) (bin_data : Bytes) : DecodeOut :=
  let acc0 : Bytes := acc.getD []
  let t : Nat := bin_data.headD 0
  let flags : Nat := (bin_data.get? 1).getD 0
  let acc1 : Bytes := if flags &&& START ≠ 0 then acc0 ++ bin_data.drop 2 else acc0
  if flags &&& END ≠ 0 then
    let data := finalizeVal t acc1
    if binFalsy data then ⟨.bytes bin_data, none⟩ else ⟨data, none⟩
  else
    ⟨.bytes bin_data, some acc1⟩

/-! ## Pattern lookup (`PixelblazeBase._get_pattern_id_and_name`)

Lines 539-547 and 556-571.  The pattern list is a Python dict id → name,
embedded as an insertion-ordered association list of strings.  Note the
Python truthiness tests `pattern if name else None` / `pattern if pid
else None`: an empty string is falsy.
-/

/-- `_id_from_name` (lines 539-542): first id whose name matches, else
`None`. -/
def id_from_name (patterns : List (String × String)) (name : String) : Option String :=
  ((patterns.filter (fun p => p.2 == name)).map (fun p => p.1)).head?

/-- `_name_from_id` (lines 544-547): first name whose id matches, else
`None`. -/
def name_from_id (patterns : List (String × String)) (pid : String) : Option String :=
  ((patterns.filter (fun p => p.1 == pid)).map (fun p => p.2)).head?

/-- Python truthiness of an optional string: `None` and `""` are falsy. -/
def pyTruthyOptStr : Option String → Bool
  | none => false
  | some s => !(s == "")

/-- `_get_pattern_id_and_name` (lines 556-571), with the pattern list
passed in (the source only fetches it when the caller did not supply
one). -/
def get_pattern_id_and_name (patterns : List (String × String)) (pattern : String) :
    Option String × Option String :=
  if patterns.isEmpty then (none, none)
  else if patterns.any (fun p => p.1 == pattern) then
    let name := name_from_id patterns pattern
    let pid := if pyTruthyOptStr name then some pattern else none
    (pid, name)
  else
    let pid := id_from_name patterns pattern
    let name := if pyTruthyOptStr pid then some pattern else none
    (pid, name)

/-! ## Clamping and the flash-save permission flag -/

/-- `_clamp` (PixelblazeBase.py lines 472-476): `max(0, min(float(n), 1))`. -/
def clamp (n : ℚ) : ℚ := max 0 (min n 1)

/-- `_get_save_value` (PixelblazeBase.py lines 490-497): always `False`
unless `_enable_flash_save()` has set `flash_save_enabled`. -/
def get_save_value (flash_save_enabled : Bool) (val : Bool) : Bool :=
  if flash_save_enabled then val else false

/-! ## The JSON bodies the setters transmit

Each façade setter builds one command dict and hands it to `_ws_send`
(`PixelblazeClient.py`).  `flash_save_enabled` is the session flag set
by `_enable_flash_save`.
-/

/-- `setBrightness` (PixelblazeClient.py lines 200-203):
`{"brightness": _clamp(n), 'save': _get_save_value(saveFlash)}`. -/
def setBrightnessMsg (flash_save_enabled : Bool) (n : ℚ) (saveFlash : Bool) : JObj :=
  [("brightness", .num (clamp n)),
   ("save", .bool (get_save_value flash_save_enabled saveFlash))]

/-- `setControls` (lines 278-288): `{"setControls": json_ctl, "save": save}`. -/
def setControlsMsg (flash_save_enabled : Bool) (json_ctl : JObj) (saveFlash : Bool) : JObj :=
  [("setControls", .obj json_ctl),
   ("save", .bool (get_save_value flash_save_enabled saveFlash))]

/-- `setControl` (lines 290-298) delegates to `setControls` with a
one-entry dict. -/
def setControlMsg (flash_save_enabled : Bool) (ctl_name : String) (value : JVal)
    (saveFlash : Bool) : JObj :=
  setControlsMsg flash_save_enabled [(ctl_name, value)] saveFlash

/-- `setColorControl` (lines 300-313) delegates to `setControls` with a
one-entry dict. -/
def setColorControlMsg (flash_save_enabled : Bool) (ctl_name : String) (color : JVal)
    (saveFlash : Bool) : JObj :=
  setControlsMsg flash_save_enabled [(ctl_name, color)] saveFlash

/-- `setDataspeed` (lines 348-361): `{"dataSpeed": speed, "save": save}`. -/
def setDataspeedMsg (flash_save_enabled : Bool) (speed : ℚ) (saveFlash : Bool) : JObj :=
  [("dataSpeed", .num speed),
   ("save", .bool (get_save_value flash_save_enabled saveFlash))]

/-- `setpixelCount` (lines 366-374): `{"pixelCount": num, "save": save}`. -/
def setpixelCountMsg (flash_save_enabled : Bool) (num : ℚ) (saveFlash : Bool) : JObj :=
  [("pixelCount", .num num),
   ("save", .bool (get_save_value flash_save_enabled saveFlash))]

/-! ## The awaited-response machinery (`_expect`, `_ws_send`, the cache)

`_expect` (PixelblazeBase.py lines 399-439) cooperatively pulls frames
from the session's json and binary queues until every awaited key (and
the awaited binary type, if any) is satisfied; `asyncio.wait_for` in
`_ws_send` (line 750) cancels it at the deadline.  The embedding passes
the frames that arrive on each queue before the deadline as explicit
lists, so "`_expect` completes within the deadline" is the function
returning `some ...` on that trace, and "the deadline elapses first" is
the function returning `none` (the queues were exhausted with keys
still unsatisfied).
-/

/-- The per-key wait `while not key in result.keys(): result = await
self.json_q.get()` (lines 413-415): `result` keeps the last fetched
frame across keys; pull frames until the current one contains the key. -/
def awaitKey (key : String) : JObj → List JObj → Option (JObj × List JObj)
  | result, [] => if hasKey result key then some (result, []) else none
  | result, f :: rest =>
    if hasKey result key then some (result, f :: rest) else awaitKey key f rest

/-- One key's contribution to `json_data` (lines 416-421): the whole
frame in whole-object mode, the value's own entries when the value is a
dict, the (key, value) pair otherwise. -/
def mergeKey (all : Bool) (json_data : JObj) (key : String) (result : JObj) : JObj :=
  if all then pyUpdate json_data result
  else
    match pyGet result key with
    | some (JVal.obj o) => pyUpdate json_data o
    | some v => pyUpdate json_data [(key, v)]
    | none => json_data

/-- The `for key in keys` loop of `_expect` (lines 412-421), threading
`json_data`, the persistent `result` frame and the unread frames. -/
def expectLoop (all : Bool) : List String → JObj → JObj → List JObj →
    Option (JObj × JObj × List JObj)
  | [], json_data, result, frames => some (json_data, result, frames)
  | key :: ks, json_data, result, frames =>
    match awaitKey key result frames with
    | none => none
    | some (r, rest) => expectLoop all ks (mergeKey all json_data key r) r rest

/-- The single-value collapse at the end of `_expect` (lines 437-438):
a one-entry result dict is unwrapped to its bare value unless
whole-object mode is on. -/
def unwrapSingle (all : Bool) (json_data : JObj) : JVal :=
  if json_data.length = 1 ∧ all = false then (json_data.headD ("", JVal.null)).2
  else .obj json_data

/-- The binary branch of `_expect` (lines 424-434): pull chunks,
discard chunks whose first byte is not the awaited type, feed matching
chunks to `_decode_binary_data`; stop when the decode yields a dict
(pattern list) or when the decoded value no longer starts with the
awaited type byte. -/
def binLoop (binary : Nat) : Option Bytes → List Bytes → Option (BinValue × Option Bytes)
  | _, [] => none
  | acc, c :: rest =>
    if c.headD 0 = binary then
      match decodeBinaryData acc c with
      | ⟨.plist m, acc2⟩ => some (.plist m, acc2)
      | ⟨.bytes b, acc2⟩ =>
        if b.headD 0 = binary then binLoop binary acc2 rest
        else some (.bytes b, acc2)
    else binLoop binary acc rest

/-- `_expect` (lines 399-439) on the frames arriving before the
deadline.  Returns the (json_data, bin_data) pair the coroutine hands
back plus the final binary accumulator, or `none` when the queues are
exhausted with awaited data still missing (the deadline elapses).  With
no awaited keys the json result stays the empty dict; with no awaited
binary type the returned bin_data is the one-byte string
`bytes([binary])`. -/
def expectFun (keys : List String) (all : Bool) (binary : Nat)
    (jsonFrames : List JObj) (binFrames : List Bytes) (acc : Option Bytes) :
    Option (JVal × BinValue × Option Bytes) :=
  let jsonPart : Option JObj :=
    if keys.isEmpty then some []
    else (expectLoop all keys [] [] jsonFrames).map (fun r => r.1)
  match jsonPart with
  | none => none
  | some jd =>
    if binary ≠ 0 then
      match binLoop binary acc binFrames with
      | none => none
      | some (bv, acc2) => some (unwrapSingle all jd, bv, acc2)
    else some (unwrapSingle all jd, .bytes [binary], acc)

/-- A cached value: `_ws_send` stores either a json result or a binary
result under the command's first key. -/
inductive CVal where
  | j : JVal → CVal
  | b : BinValue → CVal
  deriving Repr

/-- `self.cache` plus the `loop.call_later(self.cache_timeout,
self.cache.pop, key, None)` eviction callbacks scheduled against it
(lines 710-717): the dict and the (due-time, key) timers not yet
fired. -/
structure Cache where
  table : List (String × CVal)
  timers : List (ℚ × String)
  deriving Repr

/-- Python `self.cache[key] = value` (dict assignment). -/
def dictSetC (d : List (String × CVal)) (k : String) (v : CVal) : List (String × CVal) :=
  if d.any (fun p => p.1 == k) then d.map (fun p => if p.1 == k then (k, v) else p)
  else d ++ [(k, v)]

/-- Python `self.cache.pop(key, None)`. -/
def dictPopC (d : List (String × CVal)) (k : String) : List (String × CVal) :=
  d.filter (fun p => !(p.1 == k))

/-- The event loop firing every eviction callback that has come due by
`now`, before the next call runs. -/
def fireTimers (c : Cache) (now : ℚ) : Cache :=
  ⟨(c.timers.filter (fun e => decide (e.1 ≤ now))).foldl (fun tb e => dictPopC tb e.2) c.table,
   c.timers.filter (fun e => !(decide (e.1 ≤ now)))⟩

/-- `_cache` (lines 710-717): store only when caching was requested,
the key is truthy (non-empty string) and `self.cache_timeout > 0`, and
schedule eviction `cache_timeout` seconds later; always return the
value unchanged. -/
def cacheStore (c : Cache) (now w : ℚ) (key : String) (v : CVal) (cacheFlag : Bool) : Cache :=
  if cacheFlag = true ∧ key ≠ "" ∧ 0 < w then
    ⟨dictSetC c.table key v, c.timers ++ [(now + w, key)]⟩
  else c

/-- Python `None`-ness of a JSON value (the `val is not None` test on
line 738 fails exactly for a stored json `null`). -/
def JVal.isNull : JVal → Bool
  | .null => true
  | _ => false

/-- Python `val is not None` on a cached value: only a stored json
`null` is Python `None`; stored bytes or a stored pattern dict never
are. -/
def CVal.isNoneB : CVal → Bool
  | .j v => v.isNull
  | .b _ => false

/-- `_get_cache` (lines 719-726) followed by the `if val is not None`
test of `_ws_send` (line 738). -/
def cacheHit (c : Cache) (k : String) : Option CVal :=
  match (c.table.find? (fun p => p.1 == k)).map (fun p => p.2) with
  | some (CVal.j v) => if v.isNull then none else some (CVal.j v)
  | some (CVal.b bv) => some (CVal.b bv)
  | none => none

/-- The value `_ws_send` hands back to its caller: a cached or fresh
single value, a (json, binary) pair, Python `None`, or the pair
`(None, None)`. -/
inductive SendResult where
  | ok : CVal → SendResult
  | okPair : JVal → BinValue → SendResult
  | nothing : SendResult
  | nothingPair : SendResult
  deriving Repr

/-- `_ws_send` (lines 728-762).  Besides the returned value it yields
the cache state after the call and whether a network exchange happened
(`await self.ws.send_json(msg)`, line 747).  `now` is the wall-clock
instant of the call (the event loop fires due eviction callbacks
first), `w` is `self.cache_timeout`, and the frame lists are the frames
arriving on each queue before the `timeout` deadline of line 750. -/
def ws_send (connected : Bool) (cache : Cache) (now w : ℚ) (msg : JObj)
    (expect : List String) (all : Bool) (binary : Nat) (cacheFlag : Bool)
    (jsonFrames : List JObj) (binFrames : List Bytes) (acc : Option Bytes) :
    SendResult × Cache × Bool :=
  let c := fireTimers cache now
  let cache_key := (msg.headD ("", JVal.null)).1
  match cacheHit c cache_key with
  | some v => (.ok v, c, false)
  | none =>
    if connected = true then
      if expect.isEmpty = true ∧ binary = 0 then (.nothing, c, true)
      else
        match expectFun expect all binary jsonFrames binFrames acc with
        | some (jd, bv, _) =>
          if expect.isEmpty = false ∧ binary ≠ 0 then (.okPair jd bv, c, true)
          else if expect.isEmpty = false then
            (.ok (.j jd), cacheStore c now w cache_key (.j jd) cacheFlag, true)
          else (.ok (.b bv), cacheStore c now w cache_key (.b bv) cacheFlag, true)
        | none =>
          if expect.isEmpty = false ∧ binary ≠ 0 then (.nothingPair, c, true)
          else (.nothing, c, true)
    else
      if expect.isEmpty = false ∧ binary ≠ 0 then (.nothingPair, c, false)
      else (.nothing, c, false)

/-! ## The in-flight request state of one session

`_ws_send` keeps no per-key registry: issuing a request with `expect`
set just flips the single routing flag `self.q_data = True` (line 744)
and starts one `_expect` coroutine awaiting its keys; that coroutine
clears the flag when its key loop completes (line 423), and the
TimeoutError handler clears it (line 758).  The cooperative
interleaving of these await-separated actions is embedded as a step
machine whose state is the flag plus the list of `_expect` calls
currently in flight, each identified by the key set it awaits.
Concurrent same-key requests genuinely arise in the source: the MQTT
command loop (`_process_q`), the poll loop (`_poll_status`) and direct
façade calls all invoke `_ws_send` on the same session.
-/

/-- The session state relevant to in-flight requests: the shared
routing flag `self.q_data` and the in-flight `_expect` calls. -/
structure SessionSt where
  qData : Bool
  pending : List (List String)
  deriving Repr, DecidableEq

/-- The await-separated actions that mutate that state. -/
inductive SEvent where
  | sendStart : List String → SEvent
  | expectDone : List String → SEvent
  | timeoutFire : List String → SEvent
  deriving Repr, DecidableEq

/-- Removal of the first in-flight entry with the given key set (the
completing or cancelled `_expect` leaves the list). -/
def removeFirstReq : List (List String) → List String → List (List String)
  | [], _ => []
  | x :: xs, k => if x = k then xs else x :: removeFirstReq xs k

/-- One step: `sendStart` is lines 743-750 of `_ws_send` (flag set, new
`_expect` starts, unconditionally); `expectDone` is line 423 of
`_expect`; `timeoutFire` is line 758 of `_ws_send`. -/
def stepS (s : SessionSt) : SEvent → SessionSt
  | .sendStart keys => ⟨true, s.pending ++ [keys]⟩
  | .expectDone keys => ⟨false, removeFirstReq s.pending keys⟩
  | .timeoutFire keys => ⟨false, removeFirstReq s.pending keys⟩

/-- The state reached from a fresh session by a sequence of steps. -/
def runS (evs : List SEvent) : SessionSt :=
  evs.foldl stepS ⟨false, []⟩

/-- How many in-flight requests await a given response key. -/
def pendingFor (s : SessionSt) (key : String) : Nat :=
  (s.pending.filter (fun ks => ks.contains key)).length

/-! ## Discovery tracker (`PixelblazeEnumerator.py`) -/

/-- One tracked device record (`self.devices[pkt[1]] = {...}`,
PixelblazeEnumerator.py lines 228-231). -/
structure DeviceRecord where
  address : String × Nat
  timestamp : ℚ
  sender_id : Nat
  sender_time : Nat
  deriving Repr, DecidableEq

/-- `DEVICE_TIMEOUT = 30` seconds (line 84). -/
def DEVICE_TIMEOUT : ℚ := 30

/-- `LIST_CHECK_INTERVAL = 5` seconds (line 85): the sweep period. -/
def LIST_CHECK_INTERVAL : ℚ := 5

/-- One sweep iteration of `_updatePixelblazeList` (lines 246-248):
delete every record whose age `now - timestamp` is at least the
timeout, i.e. keep exactly the records with `now - timestamp <
timeout`. -/
def updatePixelblazeList (timeout now : ℚ) (devices : List (Nat × DeviceRecord)) :
    List (Nat × DeviceRecord) :=
  devices.filter (fun d => decide (now - d.2.timestamp < timeout))

/-- The beacon upsert of `_process_data` (lines 224-231): refresh or
insert the record for the sender id, stamped with the current
wall-clock time. -/
def processBeacon (devices : List (Nat × DeviceRecord)) (sender_id sender_time : Nat)
    (addr : String × Nat) (now : ℚ) : List (Nat × DeviceRecord) :=
  if devices.any (fun d => d.1 == sender_id) then
    devices.map (fun d =>
      if d.1 == sender_id then (sender_id, ⟨addr, now, sender_id, sender_time⟩) else d)
  else devices ++ [(sender_id, ⟨addr, now, sender_id, sender_time⟩)]

/-- `getPixelblazeList` (lines 254-255): the tracked ip addresses. -/
def getPixelblazeList (devices : List (Nat × DeviceRecord)) : List String :=
  devices.map (fun d => d.2.address.1)

end Pixelblaze

namespace Pixelblaze

/-! ## Theorems for the claims about the binary decoder -/

/-- C1: for a START-flagged chunk carrying payload p1 followed by an
END-flagged chunk of the same type carrying payload p2, the claim says
the finalized value is the concatenation p1 ++ p2 of all payload
fragments.  Evaluating `_decode_binary_data` at the failing input
(type 3 = code_data, chunks [3,1,97,98] then [3,4,99,100]) shows the
code finalizes to [97, 98] alone: only START-flagged chunks are ever
appended to the accumulator (line 461-462), so CONTINUE and END chunk
payloads are dropped. -/
theorem c1_end_payload_dropped :
    (decodeBinaryData (decodeBinaryData none [3, 1, 97, 98]).acc [3, 4, 99, 100]).val
        = BinValue.bytes [97, 98]
      ∧ BinValue.bytes [97, 98] ≠ BinValue.bytes [97, 98, 99, 100] := by
  decide

/-- C7 counterexample: a single chunk [3, 5] (type 3, flags START|END,
empty payload) is not finalized into its own payload fragment `[]`: the
falsy-result fallback `data if data else bin_data` (line 470) returns
the raw chunk [3, 5] instead. -/
theorem c7_counterexample :
    decodeBinaryData none [3, 5] = ⟨BinValue.bytes [3, 5], none⟩
      ∧ BinValue.bytes [3, 5] ≠ BinValue.bytes [] := by
  decide

/-- C7 (amended): a single chunk whose flag bitmask carries both START
and END closes the accumulator immediately (no second chunk needed),
and whenever the finalized value (the chunk's own payload fragment, or
its program-list parse for that type marker) is non-empty, that value is
returned; an empty finalized value falls back to the raw chunk. -/
theorem c7_start_end_one_frame (t f : Nat) (p : Bytes)
    (hs : f &&& START ≠ 0) (he : f &&& END ≠ 0) :
    (decodeBinaryData none (t :: f :: p)).acc = none
      ∧ (binFalsy (finalizeVal t p) = false →
          (decodeBinaryData none (t :: f :: p)).val = finalizeVal t p) := by
  unfold decodeBinaryData
  simp only [List.headD, List.get?, Option.getD, List.drop, List.nil_append]
  rw [if_pos hs, if_pos he]
  constructor
  · split <;> rfl
  · intro h
    rw [if_neg (by simp [h])]

/-- Witness for C7 (amended) at the concrete chunk [3, 5, 97]. -/
theorem c7_start_end_one_frame_witness :
    (decodeBinaryData none (3 :: 5 :: [97])).acc = none
      ∧ (decodeBinaryData none (3 :: 5 :: [97])).val = finalizeVal 3 [97] :=
  ⟨(c7_start_end_one_frame 3 5 [97] (by decide) (by decide)).1,
   (c7_start_end_one_frame 3 5 [97] (by decide) (by decide)).2 (by decide)⟩

/-! ## Theorems for the pattern-lookup claim -/

/-- With no duplicate ids, `_name_from_id` returns the name stored for
the id. -/
theorem name_from_id_of_mem (ps : List (String × String)) (r n : String)
    (hmem : (r, n) ∈ ps) (hnodup : (ps.map (fun p => p.1)).Nodup) :
    name_from_id ps r = some n := by
  induction ps with
  | nil => cases hmem
  | cons a tl ih =>
    rcases List.mem_cons.mp hmem with h | h
    · subst h
      simp [name_from_id]
    · have hkey : a.1 ≠ r := by
        intro hk
        have : r ∈ tl.map (fun p => p.1) :=
          List.mem_map.mpr ⟨(r, n), h, rfl⟩
        rw [List.map_cons, List.nodup_cons, hk] at hnodup
        exact hnodup.1 this
      have htl := ih h ((List.map_cons _ _ _ ▸ hnodup).of_cons)
      simpa [name_from_id, hkey] using htl

/-- C5: pattern resolution: given the pattern list `{"p1": "Rainbow"}`,
resolving by id "p1" and by name "Rainbow" both yield the pair
`("p1", "Rainbow")`; a reference matching neither an id nor a name
yields `(None, None)`; and id-membership is consulted first: an id
present in the list (with duplicate-free ids and a non-empty stored
name) resolves to its own (id, name) pair. -/
theorem c5_pattern_lookup :
    get_pattern_id_and_name [("p1", "Rainbow")] "p1" = (some "p1", some "Rainbow")
    ∧ get_pattern_id_and_name [("p1", "Rainbow")] "Rainbow" = (some "p1", some "Rainbow")
    ∧ (∀ (ps : List (String × String)) (r : String),
        ps.any (fun p => p.1 == r) = false → ps.any (fun p => p.2 == r) = false →
        get_pattern_id_and_name ps r = (none, none))
    ∧ (∀ (ps : List (String × String)) (r n : String),
        (r, n) ∈ ps → (ps.map (fun p => p.1)).Nodup → n ≠ "" →
        get_pattern_id_and_name ps r = (some r, some n)) := by
  refine ⟨by decide, by decide, ?_, ?_⟩
  · intro ps r h1 h2
    have hfil : ps.filter (fun p => p.2 == r) = [] := by
      rw [List.filter_eq_nil_iff]
      intro a ha
      have := List.any_eq_false.mp h2 a ha
      simpa using this
    unfold get_pattern_id_and_name
    by_cases hemp : ps.isEmpty
    · simp [hemp]
    · simp [hemp, h1, id_from_name, hfil, pyTruthyOptStr]
  · intro ps r n hmem hnodup hne
    have hne' : ps.isEmpty = false := by
      cases ps
      · cases hmem
      · rfl
    have hany : ps.any (fun p => p.1 == r) = true :=
      List.any_eq_true.mpr ⟨(r, n), hmem, by simp⟩
    have hname := name_from_id_of_mem ps r n hmem hnodup
    unfold get_pattern_id_and_name
    simp [hne', hany, hname, pyTruthyOptStr, hne]

/-- Witness for C5 at concrete inputs: "nonexistent" matches nothing in
`{"p1": "Rainbow"}`, and id "p1" resolves in a two-entry list. -/
theorem c5_pattern_lookup_witness :
    get_pattern_id_and_name [("p1", "Rainbow")] "nonexistent" = (none, none)
    ∧ get_pattern_id_and_name [("q7", "Blue"), ("p1", "Rainbow")] "p1"
        = (some "p1", some "Rainbow") :=
  ⟨c5_pattern_lookup.2.2.1 [("p1", "Rainbow")] "nonexistent" (by decide) (by decide),
   c5_pattern_lookup.2.2.2 [("q7", "Blue"), ("p1", "Rainbow")] "p1" "Rainbow"
     (by decide) (by decide) (by decide)⟩

/-! ## Theorems for the numeric clamping claim -/

/-- C6: the brightness setter transmits `max(0, min(n, 1))` for every
rational input n; in particular 31 transmits 1, 0 transmits 0, and
every negative input transmits 0 (plain min/max clamping, no
wrap-around). -/
theorem c6_brightness_clamp :
    (∀ (fe sf : Bool) (n : ℚ),
        pyGet (setBrightnessMsg fe n sf) "brightness" = some (.num (max 0 (min n 1))))
    ∧ clamp 31 = 1
    ∧ clamp 0 = 0
    ∧ (∀ n : ℚ, n < 0 → clamp n = 0) := by
  refine ⟨fun fe sf n => rfl, by norm_num [clamp], by norm_num [clamp], ?_⟩
  intro n hn
  rw [clamp, min_eq_left (by linarith), max_eq_left (by linarith)]

/-- Witness for C6: concrete negative input -5 transmits 0, and input 31
transmits 1. -/
theorem c6_brightness_clamp_witness :
    clamp (-5) = 0
    ∧ pyGet (setBrightnessMsg false 31 false) "brightness" = some (.num 1) :=
  ⟨c6_brightness_clamp.2.2.2 (-5) (by norm_num), by
    have h := c6_brightness_clamp.1 false false 31
    norm_num at h
    exact h⟩

/-! ## Theorem for the flash-save gating claim -/

/-- C9: every setter that accepts a saveFlash argument transmits a
'save' field equal to `saveFlash` gated by the flash-save permission
flag: `False` whenever the flag is disabled, the argument's value once
it is enabled. -/
theorem c9_save_flag_gates_setters :
    ∀ (fe sf : Bool) (n speed num : ℚ) (ctl : JObj) (cname : String) (v color : JVal),
      pyGet (setBrightnessMsg fe n sf) "save" = some (.bool (if fe then sf else false))
      ∧ pyGet (setControlsMsg fe ctl sf) "save" = some (.bool (if fe then sf else false))
      ∧ pyGet (setControlMsg fe cname v sf) "save" = some (.bool (if fe then sf else false))
      ∧ pyGet (setColorControlMsg fe cname color sf) "save"
          = some (.bool (if fe then sf else false))
      ∧ pyGet (setDataspeedMsg fe speed sf) "save" = some (.bool (if fe then sf else false))
      ∧ pyGet (setpixelCountMsg fe num sf) "save" = some (.bool (if fe then sf else false)) :=
  fun _ _ _ _ _ _ _ _ _ => ⟨rfl, rfl, rfl, rfl, rfl, rfl⟩

/-! ## Theorems for the pending-request claim -/

/-- C2 counterexample: the session state reached by issuing a request
awaiting "vars" and then, while it is still in flight, issuing a second
request awaiting "vars", has two in-flight requests registered for that
response key — so "at most one pending request per distinct response
key" fails at this reachable state. -/
theorem c2_counterexample :
    pendingFor (runS [SEvent.sendStart ["vars"], SEvent.sendStart ["vars"]]) "vars" = 2
    ∧ ¬ pendingFor (runS [SEvent.sendStart ["vars"], SEvent.sendStart ["vars"]]) "vars" ≤ 1 := by
  decide

/-- C2 (amended): the session keeps no per-key registry.  Issuing a new
request is unconditional in every state: it neither queues the request
behind an in-flight one for the same key nor rejects it; the new
`_expect` starts alongside every in-flight one (so the in-flight list
only grows, and several pending requests for one key are reachable),
and the single shared routing flag is set. -/
theorem c2_send_unconditional :
    ∀ (s : SessionSt) (keys : List String),
      (stepS s (.sendStart keys)).pending = s.pending ++ [keys]
      ∧ (stepS s (.sendStart keys)).qData = true :=
  fun _ _ => ⟨rfl, rfl⟩

/-! ## Theorems for the discovery-sweep claim -/

/-- C8: the sweep period is 5 seconds and the default timeout 30; a
record whose last refresh lies more than `timeout` in the past is
absent after the next sweep iteration, and a record refreshed strictly
less than `timeout` ago is still present. -/
theorem c8_discovery_sweep :
    DEVICE_TIMEOUT = 30
    ∧ LIST_CHECK_INTERVAL = 5
    ∧ (∀ (timeout now : ℚ) (devices : List (Nat × DeviceRecord)) (dev : Nat)
        (rec : DeviceRecord), (dev, rec) ∈ devices → timeout < now - rec.timestamp →
        (dev, rec) ∉ updatePixelblazeList timeout now devices)
    ∧ (∀ (timeout now : ℚ) (devices : List (Nat × DeviceRecord)) (dev : Nat)
        (rec : DeviceRecord), (dev, rec) ∈ devices → now - rec.timestamp < timeout →
        (dev, rec) ∈ updatePixelblazeList timeout now devices) := by
  refine ⟨rfl, rfl, ?_, ?_⟩
  · intro timeout now devices dev rec _ hage hin
    have h := (List.mem_filter.mp hin).2
    simp only [decide_eq_true_eq] at h
    linarith
  · intro timeout now devices dev rec hmem hage
    exact List.mem_filter.mpr ⟨hmem, by simp only [decide_eq_true_eq]; exact hage⟩

/-! ## Theorems for the timeout claim -/

/-- C3: whenever `_ws_send` awaits response keys and/or a binary type
(no cache hit intervenes: the cache starts empty here) and the awaited
trace does not complete before the deadline, the call returns the
explicit absent result — Python `None`, or `(None, None)` when both
json and binary were awaited — and never a partially satisfied
value. -/
theorem c3_timeout_absent_result :
    ∀ (t w : ℚ) (msg : JObj) (expect : List String) (all : Bool) (binary : Nat)
      (cacheFlag : Bool) (jsonFrames : List JObj) (binFrames : List Bytes)
      (acc : Option Bytes),
      ¬ (expect.isEmpty = true ∧ binary = 0) →
      expectFun expect all binary jsonFrames binFrames acc = none →
      ws_send true ⟨[], []⟩ t w msg expect all binary cacheFlag jsonFrames binFrames acc
        = (if expect.isEmpty = false ∧ binary ≠ 0 then SendResult.nothingPair
           else SendResult.nothing, ⟨[], []⟩, true) := by
  intro t w msg expect all binary cacheFlag jf bf acc hmode hexp
  unfold ws_send
  have hch : cacheHit ⟨[], []⟩ (msg.headD ("", JVal.null)).1 = none := rfl
  simp only [fireTimers, List.filter_nil, List.foldl_nil, hch, hexp, if_true]
  rw [if_neg hmode]
  by_cases hc : expect.isEmpty = false ∧ binary ≠ 0
  · rw [if_pos hc, if_pos hc]
  · rw [if_neg hc, if_neg hc]

/-- Witness for C3: awaiting "vars" (json only) with no frame arriving
returns `None`; awaiting "name" plus binary type 7 with nothing
arriving returns `(None, None)`. -/
theorem c3_timeout_absent_result_witness :
    ws_send true ⟨[], []⟩ 0 5 [("getVars", JVal.bool true)] ["vars"] false 0 false [] [] none
      = (SendResult.nothing, ⟨[], []⟩, true)
    ∧ ws_send true ⟨[], []⟩ 0 5 [("getConfig", JVal.bool true)] ["name"] true 7 false [] []
        none
      = (SendResult.nothingPair, ⟨[], []⟩, true) := by
  constructor
  · have h := c3_timeout_absent_result 0 5 [("getVars", JVal.bool true)] ["vars"] false 0
      false [] [] none (by simp) rfl
    simpa using h
  · have h := c3_timeout_absent_result 0 5 [("getConfig", JVal.bool true)] ["name"] true 7
      false [] [] none (by simp) rfl
    simpa using h

/-! ## Theorems for the single-key delivery claim -/

/-- Updating a dict with entries whose keys are fresh and duplicate-free
appends them. -/
theorem pyUpdate_append_of_fresh (o : JObj) :
    ∀ d : JObj, (∀ p ∈ o, d.any (fun q => q.1 == p.1) = false) →
      (o.map (fun p => p.1)).Nodup → pyUpdate d o = d ++ o := by
  induction o with
  | nil => intro d _ _; simp [pyUpdate]
  | cons a tl ih =>
    intro d hd hnodup
    have ha : d.any (fun q => q.1 == a.1) = false := hd a (List.mem_cons_self a tl)
    have hstep : pyInsert d a.1 a.2 = d ++ [a] := by
      simp [pyInsert, ha]
    have hfresh : ∀ p ∈ tl, (d ++ [a]).any (fun q => q.1 == p.1) = false := by
      intro p hp
      rw [List.any_append]
      have h1 := hd p (List.mem_cons_of_mem a hp)
      have h2 : a.1 ≠ p.1 := by
        intro hk
        rw [List.map_cons, List.nodup_cons] at hnodup
        exact hnodup.1 (hk ▸ List.mem_map.mpr ⟨p, hp, rfl⟩)
      simp [h1, h2]
    have htl : (tl.map (fun p => p.1)).Nodup := (List.map_cons _ _ _ ▸ hnodup).of_cons
    calc pyUpdate d (a :: tl)
        = pyUpdate (pyInsert d a.1 a.2) tl := rfl
      _ = pyUpdate (d ++ [a]) tl := by rw [hstep]
      _ = (d ++ [a]) ++ tl := ih (d ++ [a]) hfresh htl
      _ = d ++ a :: tl := by simp

/-- Merging duplicate-free entries into the empty dict is the identity. -/
theorem pyUpdate_nil_of_nodup (o : JObj) (h : (o.map (fun p => p.1)).Nodup) :
    pyUpdate [] o = o := by
  simpa using pyUpdate_append_of_fresh o [] (by intro p _; rfl) h

/-- A frame whose lookup succeeds contains the key. -/
theorem hasKey_of_pyGet (frame : JObj) (key : String) (v : JVal)
    (h : pyGet frame key = some v) : hasKey frame key = true := by
  induction frame with
  | nil => exact absurd h (by simp [pyGet])
  | cons a tl ih =>
    by_cases hk : (a.1 == key) = true
    · simp [hasKey, hk]
    · have hk' : (a.1 == key) = false := by simpa using hk
      rw [pyGet] at h
      simp only [List.find?_cons, hk'] at h
      have htl := ih (by rw [pyGet]; exact h)
      unfold hasKey at htl ⊢
      simp [List.any_cons, hk', htl]

/-- `_expect` on one awaited key whose first matching frame is `frame`:
the delivered value is the single-value collapse of that key's merged
contribution. -/
theorem expectFun_single (key : String) (frame : JObj) (all : Bool)
    (hkey : hasKey frame key = true) :
    expectFun [key] all 0 [frame] [] none
      = some (unwrapSingle all (mergeKey all [] key frame), .bytes [0], none) := by
  have h0 : hasKey [] key = false := rfl
  unfold expectFun
  simp [expectLoop, awaitKey, h0, hkey]

/-- Whether a JSON value is an object (`isinstance(result[key], dict)`). -/
def JVal.isObjB : JVal → Bool
  | .obj _ => true
  | _ => false

/-- C10 counterexample: awaiting the single key "activeProgram" with
whole-object mode off, where the matching frame maps that key to the
one-entry object `{"name": "X"}`: the delivered value is the bare inner
value "X", not the merged contents `{"name": "X"}` of that object as
the claim states. -/
theorem c10_counterexample :
    expectFun ["activeProgram"] false 0
        [[("activeProgram", JVal.obj [("name", JVal.str "X")])]] [] none
      = some (JVal.str "X", .bytes [0], none)
    ∧ JVal.str "X" ≠ JVal.obj [("name", JVal.str "X")] := by
  exact ⟨rfl, by simp⟩

/-- C10 (amended): with exactly one awaited key and whole-object mode
off, the delivered value is the bare value found under that key in the
matching frame — never the one-entry mapping from the key to it; when
that value is itself an object, the merged contents of that object are
delivered, except that a one-entry object is collapsed once more to its
single inner value (the single-entry collapse of lines 437-438 applies
to the merged dict as well).  With whole-object mode on, the entire
received JSON object is delivered. -/
theorem c10_single_key_delivery :
    ∀ (key : String) (frame : JObj) (v : JVal),
      (frame.map (fun p => p.1)).Nodup →
      pyGet frame key = some v →
      (expectFun [key] true 0 [frame] [] none
          = some (JVal.obj frame, .bytes [0], none))
      ∧ (JVal.isObjB v = false →
          expectFun [key] false 0 [frame] [] none = some (v, .bytes [0], none))
      ∧ (∀ o : JObj, v = JVal.obj o → (o.map (fun p => p.1)).Nodup →
          expectFun [key] false 0 [frame] [] none
            = some (if o.length = 1 then (o.headD ("", JVal.null)).2 else JVal.obj o,
                    .bytes [0], none)) := by
  intro key frame v hnodup hget
  have hkey := hasKey_of_pyGet frame key v hget
  refine ⟨?_, ?_, ?_⟩
  · rw [expectFun_single key frame true hkey]
    have hmerge : mergeKey true [] key frame = frame := by
      simp [mergeKey, pyUpdate_nil_of_nodup frame hnodup]
    rw [hmerge]
    simp [unwrapSingle]
  · intro hobj
    rw [expectFun_single key frame false hkey]
    have hmerge : mergeKey false [] key frame = [(key, v)] := by
      cases v with
      | obj o => simp [JVal.isObjB] at hobj
      | null => simp [mergeKey, hget, pyUpdate, pyInsert]
      | bool b => simp [mergeKey, hget, pyUpdate, pyInsert]
      | num q => simp [mergeKey, hget, pyUpdate, pyInsert]
      | str s => simp [mergeKey, hget, pyUpdate, pyInsert]
    rw [hmerge]
    simp [unwrapSingle]
  · intro o hv honodup
    subst hv
    rw [expectFun_single key frame false hkey]
    have hmerge : mergeKey false [] key frame = o := by
      simp [mergeKey, hget, pyUpdate_nil_of_nodup o honodup]
    rw [hmerge]
    by_cases hlen : o.length = 1
    · simp [unwrapSingle, hlen]
    · simp [unwrapSingle, hlen]

/-- Witness for C10 (amended) at concrete inputs: a bare number value,
a two-entry object value, and whole-object mode. -/
theorem c10_single_key_delivery_witness :
    expectFun ["ack"] false 0 [[("ack", JVal.num 1)]] [] none
      = some (JVal.num 1, .bytes [0], none)
    ∧ expectFun ["activeProgram"] false 0
        [[("activeProgram", JVal.obj [("name", JVal.str "X"), ("activeProgramId", JVal.str "p1")])]]
        [] none
      = some (JVal.obj [("name", JVal.str "X"), ("activeProgramId", JVal.str "p1")],
              .bytes [0], none)
    ∧ expectFun ["ack"] true 0 [[("ack", JVal.num 1)]] [] none
      = some (JVal.obj [("ack", JVal.num 1)], .bytes [0], none) := by
  refine ⟨?_, ?_, ?_⟩
  · exact (c10_single_key_delivery "ack" [("ack", JVal.num 1)] (JVal.num 1)
      (by simp) rfl).2.1 rfl
  · have h := (c10_single_key_delivery "activeProgram"
      [("activeProgram", JVal.obj [("name", JVal.str "X"), ("activeProgramId", JVal.str "p1")])]
      (JVal.obj [("name", JVal.str "X"), ("activeProgramId", JVal.str "p1")])
      (by simp) rfl).2.2
      [("name", JVal.str "X"), ("activeProgramId", JVal.str "p1")] rfl (by simp)
    simpa using h
  · exact (c10_single_key_delivery "ack" [("ack", JVal.num 1)] (JVal.num 1)
      (by simp) rfl).1

/-! ## Theorems for the caching claim -/

/-- The cache lookup hits on any stored value other than json null. -/
theorem cacheHit_stored (k : String) (cv : CVal) (tm : List (ℚ × String))
    (h : CVal.isNoneB cv = false) : cacheHit ⟨[(k, cv)], tm⟩ k = some cv := by
  cases cv with
  | j v =>
    have hv : v.isNull = false := h
    simp [cacheHit, List.find?_cons, hv]
  | b bv => simp [cacheHit, List.find?_cons]

/-- An eviction timer that is not yet due leaves the cache untouched. -/
theorem fireTimers_not_due (tb : List (String × CVal)) (td : ℚ) (k : String) (now : ℚ)
    (h : ¬ td ≤ now) : fireTimers ⟨tb, [(td, k)]⟩ now = ⟨tb, [(td, k)]⟩ := by
  simp [fireTimers, h]

/-- A due eviction timer pops its key: a one-entry cache empties. -/
theorem fireTimers_due (k : String) (cv : CVal) (td : ℚ) (now : ℚ) (h : td ≤ now) :
    fireTimers ⟨[(k, cv)], [(td, k)]⟩ now = ⟨[], []⟩ := by
  simp [fireTimers, h, dictPopC]

/-- A cache miss always reaches the network send: with a connected
socket, the third output of `_ws_send` is `true` whatever happens
afterwards. -/
theorem ws_send_sends_on_miss (cache : Cache) (now w : ℚ) (msg : JObj)
    (expect : List String) (all : Bool) (binary : Nat) (cf : Bool) (jf : List JObj)
    (bf : List Bytes) (acc : Option Bytes)
    (hmiss : cacheHit (fireTimers cache now) (msg.headD ("", JVal.null)).1 = none) :
    (ws_send true cache now w msg expect all binary cf jf bf acc).2.2 = true := by
  simp only [ws_send, hmiss]
  split
  · split
    · rfl
    · split
      · split
        · rfl
        · split
          · rfl
          · rfl
      · split
        · rfl
        · rfl
  · rename_i hco
    exact (hco (by trivial)).elim

/-- The post-store round trip shared by both cacheable shapes: with the
value `cv` stored under key `k` and eviction scheduled at `t + w`, a
call whose command body has the same first key hits the cache before
`t + w` (same value back, no network exchange, whatever its other
arguments, even disconnected), and from `t + w` on the fired timer has
emptied the table and such a call reaches the network send. -/
theorem cache_roundtrip_state (t w : ℚ) (k : String) (cv : CVal)
    (hcv : CVal.isNoneB cv = false) :
    (∀ (conn2 : Bool) (t' w2 : ℚ) (v2 : JVal) (mrest2 : JObj) (expect2 : List String)
        (all2 : Bool) (binary2 : Nat) (cf2 : Bool) (jf2 : List JObj) (bf2 : List Bytes)
        (acc3 : Option Bytes), t' < t + w →
        ws_send conn2 ⟨[(k, cv)], [(t + w, k)]⟩ t' w2 ((k, v2) :: mrest2) expect2
            all2 binary2 cf2 jf2 bf2 acc3
          = (.ok cv, ⟨[(k, cv)], [(t + w, k)]⟩, false))
    ∧ (∀ (t' w2 : ℚ) (v2 : JVal) (mrest2 : JObj) (expect2 : List String) (all2 : Bool)
        (binary2 : Nat) (cf2 : Bool) (jf2 : List JObj) (bf2 : List Bytes)
        (acc3 : Option Bytes), t + w ≤ t' →
        (fireTimers ⟨[(k, cv)], [(t + w, k)]⟩ t').table = []
        ∧ (ws_send true ⟨[(k, cv)], [(t + w, k)]⟩ t' w2 ((k, v2) :: mrest2) expect2
            all2 binary2 cf2 jf2 bf2 acc3).2.2 = true) := by
  constructor
  · intro conn2 t' w2 v2 mrest2 expect2 all2 binary2 cf2 jf2 bf2 acc3 ht'
    have hle : ¬ (t + w ≤ t') := not_le.mpr ht'
    have hfire := fireTimers_not_due [(k, cv)] (t + w) k t' hle
    have hch := cacheHit_stored k cv [(t + w, k)] hcv
    simp [ws_send, hfire, hch]
  · intro t' w2 v2 mrest2 expect2 all2 binary2 cf2 jf2 bf2 acc3 hle
    have hfire := fireTimers_due k cv (t + w) t' hle
    exact ⟨by rw [hfire],
      ws_send_sends_on_miss ⟨[(k, cv)], [(t + w, k)]⟩ t' w2 ((k, v2) :: mrest2) expect2
        all2 binary2 cf2 jf2 bf2 acc3 (by rw [hfire]; rfl)⟩

/-- C4: caching round-trip of `_ws_send`/`_cache`, covering both
cacheable shapes the façade uses: a json-awaited command
(`_get_hardware_config`: expect keys, no binary) whose resolved value
is non-null, and a binary-awaited command (`_get_patterns`:
expect=None, a binary type marker).  Starting from an empty cache at
time `t`, for either shape:

* with cache timeout `w > 0`, the resolved result is stored under the
  command body's first key `k`, with eviction scheduled at `t + w`;
* a second call whose command body has the same first key, issued at
  any time `t' < t + w`, returns exactly the stored value with no
  network exchange (whatever its other arguments, even disconnected);
* at any time `t' ≥ t + w` the entry has been evicted (the fired timer
  empties the table) and a call with the same first key performs a
  fresh network exchange;
* with cache timeout `0`, nothing is ever stored: the cache stays
  empty. -/
theorem c4_cache_roundtrip :
    ∀ (t : ℚ) (k : String) (v0 : JVal) (mrest : JObj) (all : Bool) (jf : List JObj)
      (bf : List Bytes) (acc : Option Bytes),
      k ≠ "" →
      ((∀ (expect : List String) (jd : JVal) (bv : BinValue) (acc2 : Option Bytes),
        expect ≠ [] →
        expectFun expect all 0 jf bf acc = some (jd, bv, acc2) →
        JVal.isNull jd = false →
        (∀ w : ℚ, 0 < w →
          ws_send true ⟨[], []⟩ t w ((k, v0) :: mrest) expect all 0 true jf bf acc
            = (.ok (.j jd), ⟨[(k, .j jd)], [(t + w, k)]⟩, true)
          ∧ (∀ (conn2 : Bool) (t' w2 : ℚ) (v2 : JVal) (mrest2 : JObj)
              (expect2 : List String) (all2 : Bool) (binary2 : Nat) (cf2 : Bool)
              (jf2 : List JObj) (bf2 : List Bytes) (acc3 : Option Bytes), t' < t + w →
              ws_send conn2 ⟨[(k, .j jd)], [(t + w, k)]⟩ t' w2 ((k, v2) :: mrest2) expect2
                  all2 binary2 cf2 jf2 bf2 acc3
                = (.ok (.j jd), ⟨[(k, .j jd)], [(t + w, k)]⟩, false))
          ∧ (∀ (t' w2 : ℚ) (v2 : JVal) (mrest2 : JObj) (expect2 : List String)
              (all2 : Bool) (binary2 : Nat) (cf2 : Bool) (jf2 : List JObj)
              (bf2 : List Bytes) (acc3 : Option Bytes), t + w ≤ t' →
              (fireTimers ⟨[(k, .j jd)], [(t + w, k)]⟩ t').table = []
              ∧ (ws_send true ⟨[(k, .j jd)], [(t + w, k)]⟩ t' w2 ((k, v2) :: mrest2)
                  expect2 all2 binary2 cf2 jf2 bf2 acc3).2.2 = true))
        ∧ ws_send true ⟨[], []⟩ t 0 ((k, v0) :: mrest) expect all 0 true jf bf acc
            = (.ok (.j jd), ⟨[], []⟩, true))
      ∧ (∀ (binary : Nat) (jd : JVal) (bv : BinValue) (acc2 : Option Bytes),
        binary ≠ 0 →
        expectFun [] all binary jf bf acc = some (jd, bv, acc2) →
        (∀ w : ℚ, 0 < w →
          ws_send true ⟨[], []⟩ t w ((k, v0) :: mrest) [] all binary true jf bf acc
            = (.ok (.b bv), ⟨[(k, .b bv)], [(t + w, k)]⟩, true)
          ∧ (∀ (conn2 : Bool) (t' w2 : ℚ) (v2 : JVal) (mrest2 : JObj)
              (expect2 : List String) (all2 : Bool) (binary2 : Nat) (cf2 : Bool)
              (jf2 : List JObj) (bf2 : List Bytes) (acc3 : Option Bytes), t' < t + w →
              ws_send conn2 ⟨[(k, .b bv)], [(t + w, k)]⟩ t' w2 ((k, v2) :: mrest2) expect2
                  all2 binary2 cf2 jf2 bf2 acc3
                = (.ok (.b bv), ⟨[(k, .b bv)], [(t + w, k)]⟩, false))
          ∧ (∀ (t' w2 : ℚ) (v2 : JVal) (mrest2 : JObj) (expect2 : List String)
              (all2 : Bool) (binary2 : Nat) (cf2 : Bool) (jf2 : List JObj)
              (bf2 : List Bytes) (acc3 : Option Bytes), t + w ≤ t' →
              (fireTimers ⟨[(k, .b bv)], [(t + w, k)]⟩ t').table = []
              ∧ (ws_send true ⟨[(k, .b bv)], [(t + w, k)]⟩ t' w2 ((k, v2) :: mrest2)
                  expect2 all2 binary2 cf2 jf2 bf2 acc3).2.2 = true))
        ∧ ws_send true ⟨[], []⟩ t 0 ((k, v0) :: mrest) [] all binary true jf bf acc
            = (.ok (.b bv), ⟨[], []⟩, true))) := by
  intro t k v0 mrest all jf bf acc hk
  have hchEmpty : ∀ key : String, cacheHit ⟨[], []⟩ key = none := fun _ => rfl
  constructor
  · intro expect jd bv acc2 hexp hrun hnull
    have hie : expect.isEmpty = false := by
      cases expect with
      | nil => exact absurd rfl hexp
      | cons a l => rfl
    constructor
    · intro w hw
      refine ⟨?_, (cache_roundtrip_state t w k (CVal.j jd) hnull).1,
        (cache_roundtrip_state t w k (CVal.j jd) hnull).2⟩
      simp [ws_send, fireTimers, hchEmpty, hie, hrun, cacheStore, hk, hw, dictSetC]
    · simp [ws_send, fireTimers, hchEmpty, hie, hrun, cacheStore]
  · intro binary jd bv acc2 hbin hrun
    constructor
    · intro w hw
      refine ⟨?_, (cache_roundtrip_state t w k (CVal.b bv) rfl).1,
        (cache_roundtrip_state t w k (CVal.b bv) rfl).2⟩
      simp [ws_send, fireTimers, hchEmpty, hrun, hbin, cacheStore, hk, hw, dictSetC]
    · simp [ws_send, fireTimers, hchEmpty, hrun, hbin, cacheStore]

/-- Witness for C4 at both cacheable shapes: the json-awaited
`{"getConfig": true}` exchange resolving to "pb", and the
binary-awaited `{"listPrograms": true}` exchange (binary type 7)
resolving to the pattern dict parsed from the chunk
[7, 5, 112, 49, 9, 82]; each stored at time 0 with a 5-second timeout,
hit at time 3, evicted by time 7, and not stored at all with
timeout 0. -/
theorem c4_cache_roundtrip_witness :
    ws_send true ⟨[], []⟩ 0 5 [("getConfig", JVal.bool true)] ["name"] false 0 true
        [[("name", JVal.str "pb")]] [] none
      = (.ok (.j (.str "pb")),
         ⟨[("getConfig", CVal.j (JVal.str "pb"))], [(0 + 5, "getConfig")]⟩, true)
    ∧ ws_send true ⟨[("getConfig", CVal.j (JVal.str "pb"))], [(0 + 5, "getConfig")]⟩ 3 5
        [("getConfig", JVal.bool true)] ["name"] false 0 true [] [] none
      = (.ok (.j (.str "pb")),
         ⟨[("getConfig", CVal.j (JVal.str "pb"))], [(0 + 5, "getConfig")]⟩, false)
    ∧ (fireTimers ⟨[("getConfig", CVal.j (JVal.str "pb"))], [(0 + 5, "getConfig")]⟩ 7).table
        = []
    ∧ (ws_send true ⟨[("getConfig", CVal.j (JVal.str "pb"))], [(0 + 5, "getConfig")]⟩ 7 5
        [("getConfig", JVal.bool true)] ["name"] false 0 true [[("name", JVal.str "pb")]]
        [] none).2.2 = true
    ∧ ws_send true ⟨[], []⟩ 0 0 [("getConfig", JVal.bool true)] ["name"] false 0 true
        [[("name", JVal.str "pb")]] [] none
      = (.ok (.j (.str "pb")), ⟨[], []⟩, true)
    ∧ ws_send true ⟨[], []⟩ 0 5 [("listPrograms", JVal.bool true)] [] false 7 true []
        [[7, 5, 112, 49, 9, 82]] none
      = (.ok (.b (.plist [([112, 49], [82])])),
         ⟨[("listPrograms", CVal.b (BinValue.plist [([112, 49], [82])]))],
          [(0 + 5, "listPrograms")]⟩, true)
    ∧ ws_send true ⟨[("listPrograms", CVal.b (BinValue.plist [([112, 49], [82])]))],
          [(0 + 5, "listPrograms")]⟩ 3 5 [("listPrograms", JVal.bool true)] [] false 7 true
          [] [] none
      = (.ok (.b (.plist [([112, 49], [82])])),
         ⟨[("listPrograms", CVal.b (BinValue.plist [([112, 49], [82])]))],
          [(0 + 5, "listPrograms")]⟩, false)
    ∧ ws_send true ⟨[], []⟩ 0 0 [("listPrograms", JVal.bool true)] [] false 7 true []
        [[7, 5, 112, 49, 9, 82]] none
      = (.ok (.b (.plist [([112, 49], [82])])), ⟨[], []⟩, true) := by
  have hj := (c4_cache_roundtrip 0 "getConfig" (JVal.bool true) [] false
    [[("name", JVal.str "pb")]] [] none (by simp)).1 ["name"] (JVal.str "pb")
    (.bytes [0]) none (by simp) rfl rfl
  have hb := (c4_cache_roundtrip 0 "listPrograms" (JVal.bool true) [] false []
    [[7, 5, 112, 49, 9, 82]] none (by simp)).2 7 (JVal.obj [])
    (.plist [([112, 49], [82])]) none (by norm_num) rfl
  have hj5 := hj.1 5 (by norm_num)
  have hb5 := hb.1 5 (by norm_num)
  exact ⟨hj5.1,
    hj5.2.1 true 3 5 (JVal.bool true) [] ["name"] false 0 true [] [] none (by norm_num),
    (hj5.2.2 7 5 (JVal.bool true) [] ["name"] false 0 true [[("name", JVal.str "pb")]] []
      none (by norm_num)).1,
    (hj5.2.2 7 5 (JVal.bool true) [] ["name"] false 0 true [[("name", JVal.str "pb")]] []
      none (by norm_num)).2,
    hj.2,
    hb5.1,
    hb5.2.1 true 3 5 (JVal.bool true) [] [] false 7 true [] [] none (by norm_num),
    hb.2⟩

/-- Witness for C8: a record stamped at time 0 is gone from the sweep
at time 31 (more than 30 elapsed) and still present in the sweep at
time 29 (strictly less than 30 elapsed). -/
theorem c8_discovery_sweep_witness :
    (1, DeviceRecord.mk ("10.0.0.7", 1889) 0 1 5)
        ∉ updatePixelblazeList 30 31 [(1, DeviceRecord.mk ("10.0.0.7", 1889) 0 1 5)]
    ∧ (1, DeviceRecord.mk ("10.0.0.7", 1889) 0 1 5)
        ∈ updatePixelblazeList 30 29 [(1, DeviceRecord.mk ("10.0.0.7", 1889) 0 1 5)] :=
  ⟨c8_discovery_sweep.2.2.1 30 31 _ 1 (DeviceRecord.mk ("10.0.0.7", 1889) 0 1 5)
      (List.mem_singleton.mpr rfl) (by norm_num),
   c8_discovery_sweep.2.2.2 30 29 _ 1 (DeviceRecord.mk ("10.0.0.7", 1889) 0 1 5)
      (List.mem_singleton.mpr rfl) (by norm_num)⟩

end Pixelblaze
